import Mathlib

/-
  Verification development for the my_mysql repository.

  Shallow embedding of:
  - the Result/Error and IO monad of src/tests/include/result_monad.hpp and
    src/tests/include/io_monad.hpp,
  - the MySQL session state and shape adaptors of src/include/mysql_base.hpp,
  - the monadic session of src/include/mysql_monad.hpp,
  - the HTTP connection pool of src/tests/include/beast_connection_pool.hpp.

  Asynchronous semantics are modelled with virtual time: an IO value is a
  function from a start instant (milliseconds, Nat) to the list of
  (instant, result) deliveries it makes to its continuation, in time order.
  A correct single-shot IO delivers exactly one element; modelling the
  deliveries as a list keeps double-callback bugs expressible.  Timers are
  assumed to fire without error (the boost error path of steady_timer is not
  modelled); thrown C++ exceptions in user callables are modelled by giving
  the callable an Except String result whose error carries exception.what().
-/

namespace monad

/-- Error from result_monad.hpp: code plus what message. -/
structure Error where
  code : Int
  what : String
deriving DecidableEq, Repr

/-- Result of result_monad.hpp: exactly one of Ok or Err. -/
inductive Result (α : Type) where
  | Ok (v : α)
  | Err (e : Error)
deriving DecidableEq, Repr

/-- Result::is_ok. -/
def Result.isOk {α : Type} : Result α → Bool
  | .Ok _ => true
  | .Err _ => false

/-- Result::is_err. -/
def Result.isErr {α : Type} : Result α → Bool
  | .Ok _ => false
  | .Err _ => true

/-- Virtual-time model of io_monad.hpp IO of T: a thunk that, started at an
instant, produces the timed list of continuation invocations. -/
def IOm (α : Type) : Type := Nat → List (Nat × Result α)

/-- Each delivery of the upstream triggers the handler installed on it; the
handler output lists are concatenated in time order.  This mirrors prev.run
being given a handler that reacts to every continuation invocation. -/
def emitAll {α β : Type} (l : List (Nat × Result α))
    (f : Nat × Result α → List (Nat × Result β)) : List (Nat × Result β) :=
  match l with
  | [] => []
  | x :: xs => f x ++ emitAll xs f

/-- IO::pure: immediately yields Ok(value). -/
def pureT {α : Type} (v : α) : IOm α := fun t => [(t, Result.Ok v)]

/-- IO::fail: immediately yields Err(error). -/
def failT {α : Type} (e : Error) : IOm α := fun t => [(t, Result.Err e)]

/-- IO::map.  The callable is modelled as returning Except String so that a
thrown std::exception (carrying exception.what()) is representable; a throw
is converted to Error{-1, what}.  On upstream Err the callable is not invoked
and the error passes through. -/
def mapT {α β : Type} (io : IOm α) (f : α → Except String β) : IOm β :=
  fun t =>
    emitAll (io t) (fun p =>
      match p.2 with
      | Result.Ok v =>
        match f v with
        | Except.ok u => [(p.1, Result.Ok u)]
        | Except.error msg => [(p.1, Result.Err ⟨-1, msg⟩)]
      | Result.Err e => [(p.1, Result.Err e)])

/-- IO::then.  On upstream Ok at instant t1 the produced IO is run starting
at t1; a throw in the callable is converted to Error{-2, what}; on upstream
Err the callable is not invoked and the error passes through. -/
def thenT {α β : Type} (io : IOm α) (f : α → Except String (IOm β)) : IOm β :=
  fun t =>
    emitAll (io t) (fun p =>
      match p.2 with
      | Result.Ok v =>
        match f v with
        | Except.ok next => next p.1
        | Except.error msg => [(p.1, Result.Err ⟨-2, msg⟩)]
      | Result.Err e => [(p.1, Result.Err e)])

/-- IO::catch_then.  Runs the recovery only on upstream Err; a throw in the
recovery is converted to Error{-3, what}; Ok passes through. -/
def catch_thenT {α : Type} (io : IOm α) (f : Error → Except String (IOm α)) :
    IOm α :=
  fun t =>
    emitAll (io t) (fun p =>
      match p.2 with
      | Result.Err e =>
        match f e with
        | Except.ok next => next p.1
        | Except.error msg => [(p.1, Result.Err ⟨-3, msg⟩)]
      | Result.Ok v => [(p.1, Result.Ok v)])

/-- IO::map_err: transforms an Err, passes Ok through. -/
def map_errT {α : Type} (io : IOm α) (f : Error → Error) : IOm α :=
  fun t =>
    emitAll (io t) (fun p =>
      match p.2 with
      | Result.Err e => [(p.1, Result.Err (f e))]
      | Result.Ok v => [(p.1, Result.Ok v)])

/-- delay_for of io_monad.hpp at T = monostate: completes with Ok after the
timer elapses (timer assumed error free). -/
def delay_forT (d : Nat) : IOm Unit := fun t => [(t + d, Result.Ok ())]

/-- IO of T delay (io_monad.hpp lines 347 to 360).  The thunk schedules a
steady_timer for the duration whose wait handler emits ONLY on a timer error
(nothing on success), and then invokes self.run immediately, forwarding the
upstream result to the continuation without waiting for the timer.  With
error-free timers the composed IO is therefore identical to the upstream:
the duration has no effect. -/
def delayT {α : Type} (io : IOm α) (_duration : Nat) : IOm α := fun t => io t

/-- IO of void delay (io_monad.hpp lines 728 to 733): delay_for(duration)
then the upstream, so the upstream starts only after the timer elapses. -/
def delayVoidT (io : IOm Unit) (d : Nat) : IOm Unit :=
  thenT (delay_forT d) (fun _ => Except.ok io)

/-- The timeout error Error{2, Operation timed out}. -/
def timeoutError : Error := ⟨2, "Operation timed out"⟩

/-- IO::timeout (io_monad.hpp lines 384 to 407 and 740 to 763).  A timer is
scheduled at t + d and self is run at t; both completions share a fired
flag: the first event in time order delivers (timer deliver Err{2,...},
inner delivers its result and cancels the timer) and every later event is
dropped.  When timer and inner land on the same tick the reactor runs one
handler first; tieTimerFirst says which, and the fired flag suppresses the
other. -/
def timeoutT {α : Type} (io : IOm α) (d : Nat) (tieTimerFirst : Bool) :
    IOm α :=
  fun t =>
    match io t with
    | [] => [(t + d, Result.Err timeoutError)]
    | (t1, r) :: _ =>
      if t1 < t + d ∨ (t1 = t + d ∧ tieTimerFirst = false) then [(t1, r)]
      else [(t + d, Result.Err timeoutError)]

/-- One attempt of the retry loop with no budget left to continue: run a
clone of the underlying IO at t and deliver its first completion (nothing
if it never completes).  The attempt start instant t is recorded. -/
def oneAttempt {α : Type} (io : IOm α) (t : Nat) :
    List (Nat × Result α) × List Nat :=
  match io t with
  | [] => ([], [t])
  | (t1, r) :: _ => ([(t1, r)], [t])

/-- Attempt loop of retry_exponential_if (io_monad.hpp lines 432 to 460 and
769 to 797).  The C++ loop counts attempts upward and stops when
attempt >= max_attempts; here the first argument is the remaining budget
(max_attempts - attempts_so_far), so the stop test attempt + 1 >= max
becomes budget <= 1.  Each attempt runs a clone of the underlying IO; on an
Err accepted by the predicate, while the budget allows, a
delay_for(current_delay) is awaited from the failure instant and the loop
re-enters with the delay doubled.  Also returned is the list of instants at
which attempts started. -/
def retryAux {α : Type} (io : IOm α) (should_retry : Error → Bool) :
    Nat → Nat → Nat → List (Nat × Result α) × List Nat
  | 0, _, t => oneAttempt io t
  | 1, _, t => oneAttempt io t
  | Nat.succ (Nat.succ l), current_delay, t =>
    match io t with
    | [] => ([], [t])
    | (t1, Result.Ok v) :: _ => ([(t1, Result.Ok v)], [t])
    | (t1, Result.Err e) :: _ =>
      if should_retry e = false then ([(t1, Result.Err e)], [t])
      else
        let res := retryAux io should_retry (Nat.succ l)
          (current_delay * 2) (t1 + current_delay)
        (res.1, t :: res.2)

/-- IO::retry_exponential_if(max_attempts, initial_delay, ioc, should_retry).
max_attempts is a C++ int; the initial remaining budget is its toNat (a
non-positive budget still performs the one attempt the loop body makes
before its stop test). -/
def retry_exponential_ifT {α : Type} (io : IOm α) (max_attempts : Int)
    (initial_delay : Nat) (should_retry : Error → Bool) : IOm α :=
  fun t => (retryAux io should_retry max_attempts.toNat initial_delay t).1

/-- Instants at which retry_exponential_if starts attempts (observation
function on the same loop). -/
def retryStartsT {α : Type} (io : IOm α) (max_attempts : Int)
    (initial_delay : Nat) (should_retry : Error → Bool) (t : Nat) :
    List Nat :=
  (retryAux io should_retry max_attempts.toNat initial_delay t).2

/-- Expected attempt start instants for an underlying IO that always takes
dur and fails: next start = previous start + dur + current delay, delay
doubling each round. -/
def genStarts : Nat → Nat → Nat → Nat → List Nat
  | 0, _, _, _ => []
  | Nat.succ k, current_delay, dur, t =>
    t :: genStarts k (current_delay * 2) dur (t + dur + current_delay)

/-- Start instant of the last attempt in the genStarts schedule. -/
def lastStart : Nat → Nat → Nat → Nat → Nat
  | 0, _, _, t => t
  | 1, _, _, t => t
  | Nat.succ (Nat.succ k), current_delay, dur, t =>
    lastStart (Nat.succ k) (current_delay * 2) dur (t + dur + current_delay)

end monad

namespace db_errors

/-- db_errors.hpp SQL_EXEC::SQL_FAILED. -/
def SQL_FAILED : Int := 1000

/-- db_errors.hpp SQL_EXEC::NO_ROWS. -/
def NO_ROWS : Int := 1001

/-- db_errors.hpp SQL_EXEC::MULTIPLE_RESULTS. -/
def MULTIPLE_RESULTS : Int := 1002

/-- db_errors.hpp SQL_EXEC::NULL_ID. -/
def NULL_ID : Int := 1003

/-- db_errors.hpp SQL_EXEC::INDEX_OUT_OF_BOUNDS. -/
def INDEX_OUT_OF_BOUNDS : Int := 1004

/-- db_errors.hpp PARSE::BAD_VALUE_ACCESS. -/
def BAD_VALUE_ACCESS : Int := 2000

end db_errors

namespace sql

/-- Runtime kind and payload of one boost::mysql::field_view cell.  The
claims only inspect null, int64 and uint64 cells; double payloads are not
modelled (floating point) and the remaining driver kinds (datetime, blob,
...) are grouped as vother. -/
inductive FieldValue where
  | vnull
  | vint (v : Int)
  | vuint (v : Nat)
  | vdouble
  | vstr (s : String)
  | vother
deriving DecidableEq, Repr

/-- One result set: its rows (each an ordered list of cells) and the
affected_rows metadata. -/
structure ResultSet where
  rows : List (List FieldValue)
  affected_rows : Nat
deriving DecidableEq, Repr

/-- MysqlSessionState of mysql_base.hpp.  conn is reduced to its validity
flag; error is the driver error code (0 = none) with errMsg its message();
diagMsg is diag.server_message(). -/
structure MysqlSessionState where
  connValid : Bool
  error : Int
  errMsg : String
  diagMsg : String
  results : List ResultSet
deriving DecidableEq, Repr

/-- Result set at a (known in-bounds) index. -/
def resultSetAt (st : MysqlSessionState) (i : Nat) : ResultSet :=
  st.results.getD i ⟨[], 0⟩

/-- First row of the result set at index i. -/
def row0At (st : MysqlSessionState) (i : Nat) : List FieldValue :=
  (resultSetAt st i).rows.getD 0 []

/-- Cell j of the first row of result set i. -/
def cellAt (st : MysqlSessionState) (i j : Nat) : FieldValue :=
  (row0At st i).getD j FieldValue.vnull

/-- The C++ comparison results.size() <= index, where size() is size_t and
index is int: the usual arithmetic conversions turn a negative index into a
huge unsigned value, so the bound check also fires for every negative
index. -/
def sizeLEIndex (n : Nat) (index : Int) : Prop :=
  index < 0 ∨ (n : Int) ≤ index

instance (n : Nat) (index : Int) : Decidable (sizeLEIndex n index) := by
  unfold sizeLEIndex; infer_instance

/-- MysqlSessionState::expect_one_row_borrowed (mysql_base.hpp lines 142 to
173): guards in source order — prior driver error, result set bound, empty
rows, more than one row, id column bound (with the formatted message), null
id — then Ok(first row). -/
def expect_one_row_borrowed (st : MysqlSessionState) (message : String)
    (result_index id_column_index : Int) :
    monad.Result (List FieldValue) :=
  if st.error ≠ 0 then
    monad.Result.Err ⟨db_errors.SQL_FAILED, st.diagMsg⟩
  else if sizeLEIndex st.results.length result_index then
    monad.Result.Err ⟨db_errors.INDEX_OUT_OF_BOUNDS, message⟩
  else if (resultSetAt st result_index.toNat).rows.length = 0 then
    monad.Result.Err ⟨db_errors.NO_ROWS, message⟩
  else if (resultSetAt st result_index.toNat).rows.length ≠ 1 then
    monad.Result.Err ⟨db_errors.MULTIPLE_RESULTS, message⟩
  else if sizeLEIndex (row0At st result_index.toNat).length id_column_index then
    monad.Result.Err ⟨db_errors.INDEX_OUT_OF_BOUNDS,
      message ++ ", id column index " ++ toString id_column_index⟩
  else if cellAt st result_index.toNat id_column_index.toNat
      = FieldValue.vnull then
    monad.Result.Err ⟨db_errors.NULL_ID, message⟩
  else
    monad.Result.Ok (row0At st result_index.toNat)

/-- static_cast of a uint64 value to int64_t: reduction modulo 2 to the 64
into the signed range (two's complement). -/
def toInt64 (v : Nat) : Int :=
  if v % 2 ^ 64 < 2 ^ 63 then ((v % 2 ^ 64 : Nat) : Int)
  else ((v % 2 ^ 64 : Nat) : Int) - 2 ^ 64

/-- expect_one_value instantiated at T = int64_t (mysql_base.hpp lines 326
to 361): shared guards (driver error, result set bound, empty rows, column
bound, null cell), then kind dispatch — int64 is returned as is, uint64 is
static_cast to int64_t, any other kind is BAD_VALUE_ACCESS. -/
def expect_one_value_i64 (st : MysqlSessionState) (message : String)
    (result_index column_index : Int) : monad.Result Int :=
  if st.error ≠ 0 then
    monad.Result.Err ⟨db_errors.SQL_FAILED, st.diagMsg⟩
  else if sizeLEIndex st.results.length result_index then
    monad.Result.Err ⟨db_errors.INDEX_OUT_OF_BOUNDS, message⟩
  else if (resultSetAt st result_index.toNat).rows.length = 0 then
    monad.Result.Err ⟨db_errors.NO_ROWS, message⟩
  else if sizeLEIndex (row0At st result_index.toNat).length column_index then
    monad.Result.Err ⟨db_errors.INDEX_OUT_OF_BOUNDS, message⟩
  else if cellAt st result_index.toNat column_index.toNat
      = FieldValue.vnull then
    monad.Result.Err ⟨db_errors.NULL_ID, message⟩
  else
    match cellAt st result_index.toNat column_index.toNat with
    | FieldValue.vint v => monad.Result.Ok v
    | FieldValue.vuint v => monad.Result.Ok (toInt64 v)
    | _ => monad.Result.Err ⟨db_errors.BAD_VALUE_ACCESS,
        message ++ ": expecting int64_t"⟩

/-- expect_one_value instantiated at T = uint64_t (mysql_base.hpp lines 362
to 375): same guards, then uint64 is returned as is, a non-negative int64
is static_cast to uint64_t, a negative int64 or any other kind is
BAD_VALUE_ACCESS. -/
def expect_one_value_u64 (st : MysqlSessionState) (message : String)
    (result_index column_index : Int) : monad.Result Nat :=
  if st.error ≠ 0 then
    monad.Result.Err ⟨db_errors.SQL_FAILED, st.diagMsg⟩
  else if sizeLEIndex st.results.length result_index then
    monad.Result.Err ⟨db_errors.INDEX_OUT_OF_BOUNDS, message⟩
  else if (resultSetAt st result_index.toNat).rows.length = 0 then
    monad.Result.Err ⟨db_errors.NO_ROWS, message⟩
  else if sizeLEIndex (row0At st result_index.toNat).length column_index then
    monad.Result.Err ⟨db_errors.INDEX_OUT_OF_BOUNDS, message⟩
  else if cellAt st result_index.toNat column_index.toNat
      = FieldValue.vnull then
    monad.Result.Err ⟨db_errors.NULL_ID, message⟩
  else
    match cellAt st result_index.toNat column_index.toNat with
    | FieldValue.vuint v => monad.Result.Ok v
    | FieldValue.vint v =>
      if v < 0 then
        monad.Result.Err ⟨db_errors.BAD_VALUE_ACCESS,
          message ++ ": negative to uint64_t"⟩
      else monad.Result.Ok v.toNat
    | _ => monad.Result.Err ⟨db_errors.BAD_VALUE_ACCESS,
        message ++ ": expecting uint64_t"⟩

end sql

namespace monad

/-- Driver outcome of pool.async_get_connection in
MonadicMysqlSession::get_connection. -/
inductive AcquireOutcome where
  | success
  | failure (code : Int) (message : String)
deriving DecidableEq, Repr

/-- MonadicMysqlSession::get_connection (mysql_monad.hpp lines 125 to 215)
in the regime where the driver completes before the timeout timer (the
watchdog and timeout arms then do nothing).  On success the state carries
the tracked connection; on driver error ec the state carries ec as its
error code and message — in both cases the IO delivers IOResult::Ok, never
IOResult Err. -/
def get_connectionT (outcome : AcquireOutcome) : IOm sql.MysqlSessionState :=
  fun t =>
    match outcome with
    | AcquireOutcome.success =>
      [(t, Result.Ok ⟨true, 0, "", "", []⟩)]
    | AcquireOutcome.failure c m =>
      [(t, Result.Ok ⟨false, c, m, "", []⟩)]

/-- run_query(sql, timeout), the SQL-string overload (mysql_monad.hpp lines
72 to 89): get_connection then — if the acquired state has an error, return
IO::pure(state); otherwise execute the SQL (abstracted as ex). -/
def run_query_strT (outcome : AcquireOutcome)
    (ex : sql.MysqlSessionState → IOm sql.MysqlSessionState) :
    IOm sql.MysqlSessionState :=
  thenT (get_connectionT outcome) (fun state =>
    Except.ok (if state.error ≠ 0 then pureT state else ex state))

/-- run_query(sql_generator, timeout), the generator overload
(mysql_monad.hpp lines 91 to 122): get_connection then — if the acquired
state has an error, return IO::fail(Error{1, state.error_message()});
otherwise run the generator under the connection (abstracted as a function
of the state) and on its Err propagate IO::fail(that error), else execute
the generated SQL. -/
def run_query_genT (outcome : AcquireOutcome)
    (sql_generator : sql.MysqlSessionState → Result String)
    (ex : sql.MysqlSessionState → String → IOm sql.MysqlSessionState) :
    IOm sql.MysqlSessionState :=
  thenT (get_connectionT outcome) (fun state =>
    Except.ok (
      if state.error ≠ 0 then failT ⟨1, state.errMsg⟩
      else
        match sql_generator state with
        | Result.Err e => failT e
        | Result.Ok s => ex state s))

end monad

namespace beast_pool

/-- Which alternative the Connection StreamVariant holds. -/
inductive StreamVariant where
  | tcpStream
  | sslStream
deriving DecidableEq, Repr

/-- beast_pool::Connection reduced to what upgrade_to_ssl inspects: the
stream variant and whether an ssl context pointer was supplied. -/
structure Connection where
  stream : StreamVariant
  hasSslCtx : Bool
deriving DecidableEq, Repr

/-- Connection::upgrade_to_ssl (beast_connection_pool.hpp lines 144 to 156).
Returns the updated connection and whether the returned pointer is non-null:
if the variant already holds SslStream the EXISTING ssl stream pointer is
returned (non-null); with no ssl context nullptr is returned; otherwise the
TCP stream is moved into a new SslStream in place. -/
def upgrade_to_ssl (c : Connection) : Connection × Bool :=
  match c.stream with
  | StreamVariant.sslStream => (c, true)
  | StreamVariant.tcpStream =>
    if c.hasSslCtx = false then (c, false)
    else ({ c with stream := StreamVariant.sslStream }, true)

/-- A pooled HTTP connection for the idle-deque model: identity plus the
liveness (alive()) and expiry (is_expired) observations the pool makes. -/
structure PoolConn where
  id : Nat
  alive : Bool
  expired : Bool
deriving DecidableEq, Repr

/-- One origin's slice of the pool: its idle deque (front = oldest,
push_back appends at the end) and the ids of connections close()d so far.
release and acquire touch only the target origin's deque (idle_[origin]);
the global shrink is a no-op while total idle stays at or under
max_total_idle, which is the regime modelled here. -/
structure PoolState where
  idle : List PoolConn
  closed : List Nat
deriving DecidableEq, Repr

/-- ConnectionPool::release (beast_connection_pool.hpp lines 256 to 276):
a non-reusable or dead connection is closed and dropped; otherwise, when
the deque is at or over max_idle_per_origin the oldest (front) entry is
closed and popped, and the connection is pushed at the back.  (With
max_idle_per_origin = 0 the C++ pops the front of an empty deque, which is
undefined; the model then just pushes.) -/
def release (max_idle : Nat) (st : PoolState) (c : PoolConn)
    (can_reuse : Bool) : PoolState :=
  if can_reuse = false ∨ c.alive = false then
    { st with closed := c.id :: st.closed }
  else if max_idle ≤ st.idle.length then
    match st.idle with
    | [] => { st with idle := [c] }
    | old :: rest => { idle := rest ++ [c], closed := old.id :: st.closed }
  else { st with idle := st.idle ++ [c] }

/-- Scan of ConnectionPool::acquire over the deque from the back: pop the
back; a live, non-expired connection is returned, a dead or expired one is
closed and the scan continues.  The input list is the deque reversed (back
first); returns the found connection, the remaining deque still reversed,
and the updated closed ids. -/
def acquireGo : List PoolConn → List Nat →
    Option PoolConn × List PoolConn × List Nat
  | [], closed => (none, [], closed)
  | c :: rest, closed =>
    if c.alive && !c.expired then (some c, rest, closed)
    else acquireGo rest (c.id :: closed)

/-- ConnectionPool::acquire (beast_connection_pool.hpp lines 233 to 253)
restricted to the idle-reuse path: LIFO scan from the back of the origin's
deque; none means the pool would go on to create a new connection. -/
def acquire (st : PoolState) : Option PoolConn × PoolState :=
  let r := acquireGo st.idle.reverse st.closed
  (r.1, { idle := r.2.1.reverse, closed := r.2.2 })

end beast_pool

/-- Sample error used by concrete instantiations. -/
def sampleErr : monad.Error := ⟨7, "boom"⟩

/-- Sample deterministic IO that takes 3ms and fails with sampleErr. -/
def failIO3 : monad.IOm Int := fun s => [(s + 3, monad.Result.Err sampleErr)]

/-- Sample deterministic IO that takes 3ms and succeeds with 9. -/
def okIO3 : monad.IOm Int := fun s => [(s + 3, monad.Result.Ok 9)]

/-- Retry predicate accepting every error. -/
def predTrue : monad.Error → Bool := fun _ => true

/-- Retry predicate rejecting every error. -/
def predFalse : monad.Error → Bool := fun _ => false

/-- Trivial execute stage: deliver the session state unchanged. -/
def execNoop : sql.MysqlSessionState → monad.IOm sql.MysqlSessionState :=
  fun st => monad.pureT st

/-- Trivial execute stage for the generator overload. -/
def execNoop2 :
    sql.MysqlSessionState → String → monad.IOm sql.MysqlSessionState :=
  fun st _ => monad.pureT st

/-- Trivial SQL generator: always produces a statement. -/
def genNoop : sql.MysqlSessionState → monad.Result String :=
  fun _ => monad.Result.Ok "SELECT 1"

/-- Live, fresh pooled connection with id 1. -/
def conn1 : beast_pool.PoolConn := ⟨1, true, false⟩

/-- Live, fresh pooled connection with id 2. -/
def conn2 : beast_pool.PoolConn := ⟨2, true, false⟩

/-- Live, fresh pooled connection with id 3. -/
def conn3 : beast_pool.PoolConn := ⟨3, true, false⟩

/-- Session state holding one result set whose single cell is the uint64
value 2 to the 63. -/
def stBig : sql.MysqlSessionState :=
  ⟨true, 0, "", "", [⟨[[sql.FieldValue.vuint (2 ^ 63)]], 0⟩]⟩

/-- Session state holding one result set whose single cell is the int64
value 5. -/
def stFive : sql.MysqlSessionState :=
  ⟨true, 0, "", "", [⟨[[sql.FieldValue.vint 5]], 0⟩]⟩

/-- Session state with one result set of exactly one non-null one-cell
row. -/
def stOneRow : sql.MysqlSessionState :=
  ⟨true, 0, "", "", [⟨[[sql.FieldValue.vint 42]], 1⟩]⟩

/-- Session state carrying a driver error. -/
def stErr : sql.MysqlSessionState :=
  ⟨true, 1045, "access denied", "server gone", []⟩

/-- A map callable that always throws with message bang. -/
def throwMap : Int → Except String Int := fun _ => Except.error "bang"

/-- A then callable that always throws with message bang. -/
def throwThen : Int → Except String (monad.IOm Int) :=
  fun _ => Except.error "bang"

/-- A catch_then callable that always throws with message bang. -/
def throwCatch : monad.Error → Except String (monad.IOm Int) :=
  fun _ => Except.error "bang"

/-- A then callable that succeeds with the received value. -/
def okThen : Int → Except String (monad.IOm Int) :=
  fun v => Except.ok (monad.pureT v)

/-- A map callable that increments. -/
def incMap : Int → Except String Int := fun v => Except.ok (v + 1)

/-- IO::pure(1). -/
def pureOne : monad.IOm Int := monad.pureT 1

/-- IO::fail(sampleErr). -/
def failOne : monad.IOm Int := monad.failT sampleErr

/-- Helper: then short-circuits a singleton Err delivery unchanged. -/
theorem thenT_err {α β : Type} (io : monad.IOm α) (t t1 : Nat)
    (e : monad.Error) (h : io t = [(t1, monad.Result.Err e)])
    (f : α → Except String (monad.IOm β)) :
    monad.thenT io f t = [(t1, monad.Result.Err e)] := by
  simp [monad.thenT, monad.emitAll, h]

/-- C3: for an upstream that delivers exactly once, timeout(d) delivers
exactly one completion: the inner result when the inner lands strictly
before the deadline, Err{2, Operation timed out} when the timer fires
strictly first, and when both land on the same tick exactly one of the two
is delivered, decided by which handler the reactor runs first — never
both. -/
theorem timeout_single_completion (α : Type) (io : monad.IOm α)
    (d t t1 : Nat) (r : monad.Result α) (tie : Bool)
    (h : io t = [(t1, r)]) :
    (monad.timeoutT io d tie t).length = 1 ∧
    (t1 < t + d → monad.timeoutT io d tie t = [(t1, r)]) ∧
    (t + d < t1 →
      monad.timeoutT io d tie t
        = [(t + d, monad.Result.Err monad.timeoutError)]) ∧
    (t1 = t + d →
      monad.timeoutT io d false t = [(t1, r)] ∧
      monad.timeoutT io d true t
        = [(t + d, monad.Result.Err monad.timeoutError)]) := by
  have heval : ∀ tie2 : Bool, monad.timeoutT io d tie2 t
      = if t1 < t + d ∨ (t1 = t + d ∧ tie2 = false) then [(t1, r)]
        else [(t + d, monad.Result.Err monad.timeoutError)] := by
    intro tie2
    unfold monad.timeoutT
    rw [h]
  refine ⟨?_, ?_, ?_, ?_⟩
  · rw [heval tie]
    split <;> simp
  · intro hlt
    rw [heval tie, if_pos (Or.inl hlt)]
  · intro hgt
    rw [heval tie, if_neg]
    rintro (h1 | ⟨h1, _⟩) <;> omega
  · intro heq
    refine ⟨?_, ?_⟩
    · rw [heval false, if_pos (Or.inr ⟨heq, rfl⟩)]
    · rw [heval true, if_neg]
      rintro (h1 | ⟨h1, h2⟩)
      · omega
      · exact Bool.noConfusion h2

/-- C3 witness: concrete instantiation at IO::pure(0) with a 5ms
deadline. -/
theorem timeout_single_completion_witness :
    (monad.timeoutT (monad.pureT (0 : Int)) 5 true 0).length = 1 ∧
    (0 < 0 + 5 →
      monad.timeoutT (monad.pureT (0 : Int)) 5 true 0
        = [(0, monad.Result.Ok 0)]) ∧
    (0 + 5 < 0 →
      monad.timeoutT (monad.pureT (0 : Int)) 5 true 0
        = [(0 + 5, monad.Result.Err monad.timeoutError)]) ∧
    (0 = 0 + 5 →
      monad.timeoutT (monad.pureT (0 : Int)) 5 false 0
        = [(0, monad.Result.Ok 0)] ∧
      monad.timeoutT (monad.pureT (0 : Int)) 5 true 0
        = [(0 + 5, monad.Result.Err monad.timeoutError)]) :=
  timeout_single_completion Int (monad.pureT 0) 5 0 0 (monad.Result.Ok 0)
    true rfl

/-- C2 (code bug, evaluated): the IO of T delay overload runs the upstream
immediately and forwards its result without waiting for the timer, so
IO::pure(1).delay(1s).timeout(10ms) delivers Ok(1) at once (under either
same-tick handler order) instead of Err{2, Operation timed out}; the IO of
void overload, by contrast, does start the upstream only after the
timer. -/
theorem delay_runs_upstream_immediately :
    monad.delayT (monad.pureT (1 : Int)) 1000 0
      = [(0, monad.Result.Ok 1)] ∧
    monad.timeoutT (monad.delayT (monad.pureT (1 : Int)) 1000) 10 true 0
      = [(0, monad.Result.Ok 1)] ∧
    monad.timeoutT (monad.delayT (monad.pureT (1 : Int)) 1000) 10 false 0
      = [(0, monad.Result.Ok 1)] ∧
    monad.timeoutT (monad.delayT (monad.pureT (1 : Int)) 1000) 10 true 0
      ≠ [(10, monad.Result.Err monad.timeoutError)] ∧
    monad.delayVoidT (monad.pureT ()) 1000 0
      = [(1000, monad.Result.Ok ())] := by
  refine ⟨rfl, rfl, rfl, by decide, rfl⟩

/-- C4: a throwing callable in map, then or catch_then is trapped and the
continuation is still invoked exactly once, with the reserved code of the
combinator (-1, -2, -3 respectively) and the exception message as what. -/
theorem combinator_exception_codes (α β : Type) (io : monad.IOm α)
    (t t1 : Nat) (msg : String) :
    (∀ (v : α) (f : α → Except String β),
      io t = [(t1, monad.Result.Ok v)] → f v = Except.error msg →
      monad.mapT io f t = [(t1, monad.Result.Err ⟨-1, msg⟩)]) ∧
    (∀ (v : α) (f : α → Except String (monad.IOm β)),
      io t = [(t1, monad.Result.Ok v)] → f v = Except.error msg →
      monad.thenT io f t = [(t1, monad.Result.Err ⟨-2, msg⟩)]) ∧
    (∀ (e : monad.Error) (f : monad.Error → Except String (monad.IOm α)),
      io t = [(t1, monad.Result.Err e)] → f e = Except.error msg →
      monad.catch_thenT io f t = [(t1, monad.Result.Err ⟨-3, msg⟩)]) := by
  refine ⟨?_, ?_, ?_⟩ <;> intro v f h hf <;>
    simp [monad.mapT, monad.thenT, monad.catch_thenT, monad.emitAll, h, hf]

/-- C4 witness: the three throwing callables on IO::pure(1) and
IO::fail(sampleErr). -/
theorem combinator_exception_codes_witness :
    monad.mapT pureOne throwMap 0 = [(0, monad.Result.Err ⟨-1, "bang"⟩)] ∧
    monad.thenT pureOne throwThen 0
      = [(0, monad.Result.Err ⟨-2, "bang"⟩)] ∧
    monad.catch_thenT failOne throwCatch 0
      = [(0, monad.Result.Err ⟨-3, "bang"⟩)] :=
  ⟨(combinator_exception_codes Int Int pureOne 0 0 "bang").1 1 throwMap
      rfl rfl,
   (combinator_exception_codes Int Int pureOne 0 0 "bang").2.1 1 throwThen
      rfl rfl,
   (combinator_exception_codes Int Int failOne 0 0 "bang").2.2 sampleErr
      throwCatch rfl rfl⟩

/-- C5: if the first stage delivers Err(e), then and map (for every
callable, hence without invoking it) pass the error through unchanged, and
a two-stage then chain delivers exactly Err(e). -/
theorem then_chain_error_passthrough (α β γ : Type) (io : monad.IOm α)
    (t t1 : Nat) (e : monad.Error)
    (h : io t = [(t1, monad.Result.Err e)]) :
    (∀ f : α → Except String (monad.IOm β),
      monad.thenT io f t = [(t1, monad.Result.Err e)]) ∧
    (∀ (f : α → Except String (monad.IOm β))
       (g : β → Except String (monad.IOm γ)),
      monad.thenT (monad.thenT io f) g t = [(t1, monad.Result.Err e)]) ∧
    (∀ f : α → Except String β,
      monad.mapT io f t = [(t1, monad.Result.Err e)]) := by
  refine ⟨fun f => thenT_err io t t1 e h f, ?_, ?_⟩
  · intro f g
    exact thenT_err (monad.thenT io f) t t1 e (thenT_err io t t1 e h f) g
  · intro f
    simp [monad.mapT, monad.emitAll, h]

/-- C5 witness: a failing IO chained through two then stages and a map. -/
theorem then_chain_error_passthrough_witness :
    monad.thenT failOne okThen 0 = [(0, monad.Result.Err sampleErr)] ∧
    monad.thenT (monad.thenT failOne okThen) okThen 0
      = [(0, monad.Result.Err sampleErr)] ∧
    monad.mapT failOne incMap 0 = [(0, monad.Result.Err sampleErr)] :=
  ⟨(then_chain_error_passthrough Int Int Int failOne 0 0 sampleErr rfl).1
      okThen,
   (then_chain_error_passthrough Int Int Int failOne 0 0 sampleErr rfl).2.1
      okThen okThen,
   (then_chain_error_passthrough Int Int Int failOne 0 0 sampleErr rfl).2.2
      incMap⟩

/-- Helper: genStarts produces exactly one instant per attempt. -/
theorem genStarts_length :
    ∀ (k cd dur t : Nat), (monad.genStarts k cd dur t).length = k := by
  intro k
  induction k with
  | zero => intro cd dur t; rfl
  | succ k ih =>
    intro cd dur t
    simp [monad.genStarts, ih]

/-- Helper: the retry loop starts at most max(budget, 1) attempts. -/
theorem retryAux_starts_le {α : Type} (io : monad.IOm α)
    (p : monad.Error → Bool) :
    ∀ (k cd t : Nat),
      ((monad.retryAux io p k cd t).2).length ≤ max k 1 := by
  intro k
  induction k using Nat.strong_induction_on with
  | _ k ih =>
    intro cd t
    rcases k with _ | _ | l
    · unfold monad.retryAux monad.oneAttempt
      cases io t with
      | nil => simp
      | cons hd tl => simp
    · unfold monad.retryAux monad.oneAttempt
      cases io t with
      | nil => simp
      | cons hd tl => simp
    · unfold monad.retryAux
      cases hio : io t with
      | nil => simp
      | cons hd tl =>
        obtain ⟨t1, r⟩ := hd
        cases r with
        | Ok v => simp
        | Err e =>
          by_cases hp : p e = false
          · simp [hp]
          · have h2 := ih (l + 1) (by omega) (cd * 2) (t1 + cd)
            simp only [hp, Bool.true_eq_false, if_false, List.length_cons,
              Nat.succ_eq_add_one]
            omega

/-- Helper: running the loop over an underlying IO that always takes dur
and fails with e, with a predicate that accepts e, performs exactly the
genStarts schedule and finally delivers Err(e) when the budget runs out. -/
theorem retryAux_uniform_fail {α : Type} (io : monad.IOm α)
    (p : monad.Error → Bool) (e : monad.Error) (dur : Nat)
    (hio : ∀ s, io s = [(s + dur, monad.Result.Err e)])
    (hp : p e = true) :
    ∀ (k cd t : Nat), 1 ≤ k →
      monad.retryAux io p k cd t
        = ([(monad.lastStart k cd dur t + dur, monad.Result.Err e)],
           monad.genStarts k cd dur t) := by
  intro k
  induction k using Nat.strong_induction_on with
  | _ k ih =>
    intro cd t hk
    rcases k with _ | _ | l
    · omega
    · unfold monad.retryAux monad.oneAttempt
      rw [hio t]
      simp [monad.genStarts, monad.lastStart]
    · unfold monad.retryAux
      rw [hio t]
      have hpf : ¬ p e = false := by simp [hp]
      have hrec := ih (l + 1) (by omega) (cd * 2) (t + dur + cd) (by omega)
      simp only [hpf, Bool.true_eq_false, if_false, hrec, monad.genStarts,
        monad.lastStart]

/-- Helper: a rejected error stops the loop after the first attempt. -/
theorem retryAux_pred_false {α : Type} (io : monad.IOm α)
    (p : monad.Error → Bool) (e : monad.Error) (dur : Nat)
    (hio : ∀ s, io s = [(s + dur, monad.Result.Err e)])
    (hp : p e = false) (k cd t : Nat) :
    monad.retryAux io p k cd t = ([(t + dur, monad.Result.Err e)], [t]) := by
  rcases k with _ | _ | l <;>
    simp [monad.retryAux, monad.oneAttempt, hio t, hp]

/-- Helper: a success stops the loop after the first attempt. -/
theorem retryAux_success {α : Type} (io : monad.IOm α)
    (p : monad.Error → Bool) (v : α) (dur : Nat)
    (hio : ∀ s, io s = [(s + dur, monad.Result.Ok v)])
    (k cd t : Nat) :
    monad.retryAux io p k cd t = ([(t + dur, monad.Result.Ok v)], [t]) := by
  rcases k with _ | _ | l <;>
    simp [monad.retryAux, monad.oneAttempt, hio t]

/-- Helper: consecutive genStarts instants are separated by the attempt
duration plus the exponentially doubling delay d0 times 2 to the i. -/
theorem genStarts_gap :
    ∀ (k cd dur t i : Nat), i + 1 < k →
      (monad.genStarts k cd dur t).getD (i + 1) 0
        = (monad.genStarts k cd dur t).getD i 0 + dur + cd * 2 ^ i := by
  intro k
  induction k with
  | zero => intro cd dur t i h; omega
  | succ k ihk =>
    intro cd dur t i h
    rcases i with _ | j
    · rcases k with _ | k2
      · omega
      · simp [monad.genStarts]
    · have h2 : j + 1 < k := by omega
      have hrec := ihk (cd * 2) dur (t + dur + cd) j h2
      simp only [monad.genStarts, List.getD_cons_succ]
      rw [hrec, pow_succ]
      ring

/-- C6: with a positive attempt budget n, retry_exponential_if starts at
most n attempts; over an always-failing clone-idempotent upstream (taking
dur, failing with e) and an accepting predicate it runs exactly the
genStarts schedule, whose consecutive attempt starts are separated by
dur + d0 times 2 to the i (waits d0, 2 d0, 4 d0, ...), and finally delivers
that error; a rejected failure or a success stops after a single attempt,
delivering that error or that first success. -/
theorem retry_exponential_if_spec (α : Type) (io : monad.IOm α)
    (p : monad.Error → Bool) (n : Int) (d0 dur t : Nat) (e : monad.Error)
    (v : α) (hn : 1 ≤ n) :
    (monad.retryStartsT io n d0 p t).length ≤ n.toNat ∧
    ((∀ s, io s = [(s + dur, monad.Result.Err e)]) → p e = true →
      monad.retryStartsT io n d0 p t = monad.genStarts n.toNat d0 dur t ∧
      monad.retry_exponential_ifT io n d0 p t
        = [(monad.lastStart n.toNat d0 dur t + dur, monad.Result.Err e)] ∧
      (∀ i, i + 1 < n.toNat →
        (monad.genStarts n.toNat d0 dur t).getD (i + 1) 0
          = (monad.genStarts n.toNat d0 dur t).getD i 0 + dur + d0 * 2 ^ i)) ∧
    ((∀ s, io s = [(s + dur, monad.Result.Err e)]) → p e = false →
      monad.retryStartsT io n d0 p t = [t] ∧
      monad.retry_exponential_ifT io n d0 p t
        = [(t + dur, monad.Result.Err e)]) ∧
    ((∀ s, io s = [(s + dur, monad.Result.Ok v)]) →
      monad.retryStartsT io n d0 p t = [t] ∧
      monad.retry_exponential_ifT io n d0 p t
        = [(t + dur, monad.Result.Ok v)]) := by
  have hk : 1 ≤ n.toNat := by omega
  refine ⟨?_, ?_, ?_, ?_⟩
  · have := retryAux_starts_le io p n.toNat d0 t
    unfold monad.retryStartsT
    omega
  · intro hio hp
    have heq := retryAux_uniform_fail io p e dur hio hp n.toNat d0 t hk
    refine ⟨?_, ?_, ?_⟩
    · unfold monad.retryStartsT
      rw [heq]
    · unfold monad.retry_exponential_ifT
      rw [heq]
    · intro i hi
      exact genStarts_gap n.toNat d0 dur t i hi
  · intro hio hp
    have heq := retryAux_pred_false io p e dur hio hp n.toNat d0 t
    constructor
    · unfold monad.retryStartsT
      rw [heq]
    · unfold monad.retry_exponential_ifT
      rw [heq]
  · intro hio
    have heq := retryAux_success io p v dur hio n.toNat d0 t
    constructor
    · unfold monad.retryStartsT
      rw [heq]
    · unfold monad.retry_exponential_ifT
      rw [heq]

/-- C6 witness: budget 2, initial delay 5, over the concrete 3ms IOs. -/
theorem retry_exponential_if_spec_witness :
    (monad.retryStartsT failIO3 2 5 predTrue 0).length ≤ Int.toNat 2 ∧
    monad.retryStartsT failIO3 2 5 predTrue 0
      = monad.genStarts (Int.toNat 2) 5 3 0 ∧
    monad.retry_exponential_ifT failIO3 2 5 predTrue 0
      = [(monad.lastStart (Int.toNat 2) 5 3 0 + 3,
          monad.Result.Err sampleErr)] ∧
    monad.retryStartsT failIO3 2 5 predFalse 0 = [0] ∧
    monad.retry_exponential_ifT failIO3 2 5 predFalse 0
      = [(0 + 3, monad.Result.Err sampleErr)] ∧
    monad.retryStartsT okIO3 2 5 predTrue 0 = [0] ∧
    monad.retry_exponential_ifT okIO3 2 5 predTrue 0
      = [(0 + 3, monad.Result.Ok 9)] := by
  have h1 := retry_exponential_if_spec Int failIO3 predTrue 2 5 3 0
    sampleErr 9 (by decide)
  have h2 := retry_exponential_if_spec Int failIO3 predFalse 2 5 3 0
    sampleErr 9 (by decide)
  have h3 := retry_exponential_if_spec Int okIO3 predTrue 2 5 3 0
    sampleErr 9 (by decide)
  have hfail : ∀ s, failIO3 s = [(s + 3, monad.Result.Err sampleErr)] :=
    fun _ => rfl
  have hok : ∀ s, okIO3 s = [(s + 3, monad.Result.Ok (9 : Int))] :=
    fun _ => rfl
  exact ⟨h1.1, (h1.2.1 hfail rfl).1, (h1.2.1 hfail rfl).2.1,
    (h2.2.2.1 hfail rfl).1, (h2.2.2.1 hfail rfl).2,
    (h3.2.2.2 hok).1, (h3.2.2.2 hok).2⟩

/-- C1 counterexample: with a concrete driver acquire error (code 1234,
message boom) the SQL-string overload of run_query delivers Ok carrying a
state whose error field is set — not IO::fail — and the generator overload
delivers IO::fail with the fixed code 1, not the driver code 1234. -/
theorem run_query_acquire_fail_counterexample :
    monad.run_query_strT (monad.AcquireOutcome.failure 1234 "boom")
        execNoop 0
      = [(0, monad.Result.Ok ⟨false, 1234, "boom", "", []⟩)] ∧
    monad.run_query_strT (monad.AcquireOutcome.failure 1234 "boom")
        execNoop 0
      ≠ [(0, monad.Result.Err ⟨1234, "boom"⟩)] ∧
    monad.run_query_genT (monad.AcquireOutcome.failure 1234 "boom")
        genNoop execNoop2 0
      = [(0, monad.Result.Err ⟨1, "boom"⟩)] ∧
    monad.run_query_genT (monad.AcquireOutcome.failure 1234 "boom")
        genNoop execNoop2 0
      ≠ [(0, monad.Result.Err ⟨1234, "boom"⟩)] := by
  refine ⟨by decide, by decide, by decide, by decide⟩

/-- C1 amended: when acquiring the pooled connection fails with driver
error code c and message m (c nonzero), the SQL-string overload completes
with IOResult::Ok carrying a session state whose error field holds c and
whose message is m (callers must inspect has_error), while the generator
overload completes as IO::fail with code 1 and the driver message m. -/
theorem run_query_acquire_error_behavior (c : Int) (m : String)
    (ex : sql.MysqlSessionState → monad.IOm sql.MysqlSessionState)
    (gen : sql.MysqlSessionState → monad.Result String)
    (ex2 : sql.MysqlSessionState → String → monad.IOm sql.MysqlSessionState)
    (t : Nat) (hc : c ≠ 0) :
    monad.run_query_strT (monad.AcquireOutcome.failure c m) ex t
      = [(t, monad.Result.Ok ⟨false, c, m, "", []⟩)] ∧
    monad.run_query_genT (monad.AcquireOutcome.failure c m) gen ex2 t
      = [(t, monad.Result.Err ⟨1, m⟩)] := by
  constructor
  · simp [monad.run_query_strT, monad.thenT, monad.emitAll,
      monad.get_connectionT, monad.pureT, hc]
  · simp [monad.run_query_genT, monad.thenT, monad.emitAll,
      monad.get_connectionT, monad.failT, hc]

/-- C1 amended witness: driver error 1234 boom at start instant 0. -/
theorem run_query_acquire_error_behavior_witness :
    monad.run_query_strT (monad.AcquireOutcome.failure 1234 "boom")
        execNoop 0
      = [(0, monad.Result.Ok ⟨false, 1234, "boom", "", []⟩)] ∧
    monad.run_query_genT (monad.AcquireOutcome.failure 1234 "boom")
        genNoop execNoop2 0
      = [(0, monad.Result.Err ⟨1, "boom"⟩)] :=
  run_query_acquire_error_behavior 1234 "boom" execNoop genNoop execNoop2 0
    (by decide)

/-- C7: with no prior driver error, expect_one_row_borrowed returns Ok of
the first row iff the indexed result set exists, holds exactly one row, the
row has more than id_column_index columns and that column is non-null;
the failure cases produce INDEX_OUT_OF_BOUNDS (missing result set or
missing column), NO_ROWS (zero rows), MULTIPLE_RESULTS (more than one row)
and NULL_ID (null id column) respectively, and a prior driver error
produces SQL_FAILED carrying the server diagnostic. -/
theorem expect_one_row_spec (st : sql.MysqlSessionState) (msg : String)
    (ri ci : Int) (h : st.error = 0) :
    ((sql.expect_one_row_borrowed st msg ri ci).isOk = true ↔
      (0 ≤ ri ∧ ri.toNat < st.results.length ∧
       (sql.resultSetAt st ri.toNat).rows.length = 1 ∧
       0 ≤ ci ∧ ci.toNat < (sql.row0At st ri.toNat).length ∧
       sql.cellAt st ri.toNat ci.toNat ≠ sql.FieldValue.vnull)) ∧
    ((sql.expect_one_row_borrowed st msg ri ci).isOk = true →
      sql.expect_one_row_borrowed st msg ri ci
        = monad.Result.Ok (sql.row0At st ri.toNat)) ∧
    (sql.sizeLEIndex st.results.length ri →
      sql.expect_one_row_borrowed st msg ri ci
        = monad.Result.Err ⟨db_errors.INDEX_OUT_OF_BOUNDS, msg⟩) ∧
    (¬ sql.sizeLEIndex st.results.length ri →
      (sql.resultSetAt st ri.toNat).rows.length = 0 →
      sql.expect_one_row_borrowed st msg ri ci
        = monad.Result.Err ⟨db_errors.NO_ROWS, msg⟩) ∧
    (¬ sql.sizeLEIndex st.results.length ri →
      2 ≤ (sql.resultSetAt st ri.toNat).rows.length →
      sql.expect_one_row_borrowed st msg ri ci
        = monad.Result.Err ⟨db_errors.MULTIPLE_RESULTS, msg⟩) ∧
    (¬ sql.sizeLEIndex st.results.length ri →
      (sql.resultSetAt st ri.toNat).rows.length = 1 →
      sql.sizeLEIndex (sql.row0At st ri.toNat).length ci →
      sql.expect_one_row_borrowed st msg ri ci
        = monad.Result.Err ⟨db_errors.INDEX_OUT_OF_BOUNDS,
            msg ++ ", id column index " ++ toString ci⟩) ∧
    (¬ sql.sizeLEIndex st.results.length ri →
      (sql.resultSetAt st ri.toNat).rows.length = 1 →
      ¬ sql.sizeLEIndex (sql.row0At st ri.toNat).length ci →
      sql.cellAt st ri.toNat ci.toNat = sql.FieldValue.vnull →
      sql.expect_one_row_borrowed st msg ri ci
        = monad.Result.Err ⟨db_errors.NULL_ID, msg⟩) ∧
    (∀ st2 : sql.MysqlSessionState, st2.error ≠ 0 →
      sql.expect_one_row_borrowed st2 msg ri ci
        = monad.Result.Err ⟨db_errors.SQL_FAILED, st2.diagMsg⟩) := by
  have herr : ¬ st.error ≠ 0 := by simp [h]
  refine ⟨?_, ?_, ?_, ?_, ?_, ?_, ?_, ?_⟩
  · unfold sql.expect_one_row_borrowed
    rw [if_neg herr]
    by_cases h1 : sql.sizeLEIndex st.results.length ri
    · rw [if_pos h1]
      simp only [monad.Result.isOk, Bool.false_eq_true, false_iff]
      rintro ⟨ha, hb, _⟩
      unfold sql.sizeLEIndex at h1
      omega
    · rw [if_neg h1]
      by_cases h2 : (sql.resultSetAt st ri.toNat).rows.length = 0
      · rw [if_pos h2]
        simp only [monad.Result.isOk, Bool.false_eq_true, false_iff]
        rintro ⟨_, _, hc1, _⟩
        omega
      · rw [if_neg h2]
        by_cases h3 : (sql.resultSetAt st ri.toNat).rows.length ≠ 1
        · rw [if_pos h3]
          simp only [monad.Result.isOk, Bool.false_eq_true, false_iff]
          rintro ⟨_, _, hc1, _⟩
          exact h3 hc1
        · rw [if_neg h3]
          push_neg at h3
          by_cases h4 : sql.sizeLEIndex (sql.row0At st ri.toNat).length ci
          · rw [if_pos h4]
            simp only [monad.Result.isOk, Bool.false_eq_true, false_iff]
            rintro ⟨_, _, _, hd, he, _⟩
            unfold sql.sizeLEIndex at h4
            omega
          · rw [if_neg h4]
            by_cases h5 : sql.cellAt st ri.toNat ci.toNat
                = sql.FieldValue.vnull
            · rw [if_pos h5]
              simp only [monad.Result.isOk, Bool.false_eq_true, false_iff]
              rintro ⟨_, _, _, _, _, hf⟩
              exact hf h5
            · rw [if_neg h5]
              simp only [monad.Result.isOk, true_iff]
              unfold sql.sizeLEIndex at h1 h4
              push_neg at h1 h4
              refine ⟨by omega, by omega, h3, by omega, by omega, h5⟩
  · intro hok
    unfold sql.expect_one_row_borrowed at hok ⊢
    rw [if_neg herr] at hok ⊢
    split_ifs at hok ⊢ <;> simp_all [monad.Result.isOk]
  · intro h1
    unfold sql.expect_one_row_borrowed
    rw [if_neg herr, if_pos h1]
  · intro h1 h2
    unfold sql.expect_one_row_borrowed
    rw [if_neg herr, if_neg h1, if_pos h2]
  · intro h1 h2
    unfold sql.expect_one_row_borrowed
    rw [if_neg herr, if_neg h1, if_neg (by omega), if_pos (by omega)]
  · intro h1 h2 h4
    unfold sql.expect_one_row_borrowed
    rw [if_neg herr, if_neg h1, if_neg (by omega), if_neg (by omega),
      if_pos h4]
  · intro h1 h2 h4 h5
    unfold sql.expect_one_row_borrowed
    rw [if_neg herr, if_neg h1, if_neg (by omega), if_neg (by omega),
      if_neg h4, if_pos h5]
  · intro st2 he2
    unfold sql.expect_one_row_borrowed
    rw [if_pos he2]

/-- C7 witness: a one-row one-column non-null state succeeds with the row,
and a state with a driver error maps to SQL_FAILED with the diagnostic. -/
theorem expect_one_row_spec_witness :
    (sql.expect_one_row_borrowed stOneRow "w" 0 0).isOk = true ∧
    sql.expect_one_row_borrowed stOneRow "w" 0 0
      = monad.Result.Ok [sql.FieldValue.vint 42] ∧
    sql.expect_one_row_borrowed stErr "w" 0 0
      = monad.Result.Err ⟨db_errors.SQL_FAILED, "server gone"⟩ := by
  have h := expect_one_row_spec stOneRow "w" 0 0 rfl
  have hok : (sql.expect_one_row_borrowed stOneRow "w" 0 0).isOk = true :=
    h.1.mpr ⟨by decide, by decide, rfl, by decide, by decide, by decide⟩
  exact ⟨hok, h.2.1 hok, h.2.2.2.2.2.2.2 stErr (by decide)⟩

/-- Helper: the int64_t static_cast of a uint64 value below 2 to the 64 is
its reduction modulo 2 to the 64 into the signed 64-bit range, negative
exactly when the value is at or above 2 to the 63. -/
theorem toInt64_spec (v : Nat) (hv : v < 2 ^ 64) :
    (2 ^ 63 ≤ v → sql.toInt64 v < 0) ∧
    (∃ k : Int, sql.toInt64 v = (v : Int) - k * 2 ^ 64) ∧
    -(2 ^ 63 : Int) ≤ sql.toInt64 v ∧ sql.toInt64 v < 2 ^ 63 := by
  have hm : v % 2 ^ 64 = v := Nat.mod_eq_of_lt hv
  unfold sql.toInt64
  rw [hm]
  by_cases hb : v < 2 ^ 63
  · rw [if_pos hb]
    have h0 : (0 : Int) ≤ (v : Int) := Int.natCast_nonneg v
    have h1 : (0 : Int) < 2 ^ 63 := by positivity
    refine ⟨fun hbig => absurd hbig (not_le.mpr hb), ⟨0, by push_cast; ring⟩,
      by linarith, by exact_mod_cast hb⟩
  · rw [if_neg hb]
    push_neg at hb
    have hcast : (v : Int) < 2 ^ 64 := by exact_mod_cast hv
    have hbi : (2 : Int) ^ 63 ≤ (v : Int) := by exact_mod_cast hb
    have h2 : (2 : Int) ^ 64 = 2 * 2 ^ 63 := by norm_num
    have h1 : (0 : Int) < 2 ^ 63 := by positivity
    refine ⟨fun _ => by linarith, ⟨1, by push_cast; ring⟩, by linarith,
      by linarith⟩

/-- C10: with no driver error and a non-null in-bounds cell, a uint64 cell
holding v (below 2 to the 64) makes expect_one_value at int64_t return
Ok(static_cast of v) — wrapping to a negative value when v is at or above
2 to the 63, i.e. reduction modulo 2 to the 64 into the signed range —
rather than BAD_VALUE_ACCESS; symmetrically an int64 cell holding a
non-negative w makes expect_one_value at uint64_t return Ok(cast of w). -/
theorem expect_one_value_numeric_cast (st : sql.MysqlSessionState)
    (msg : String) (ri ci : Int) (v : Nat) (w : Int)
    (h : st.error = 0) (hri : 0 ≤ ri) (hlen : ri.toNat < st.results.length)
    (hrows : ¬ (sql.resultSetAt st ri.toNat).rows.length = 0)
    (hci : 0 ≤ ci) (hclen : ci.toNat < (sql.row0At st ri.toNat).length) :
    (sql.cellAt st ri.toNat ci.toNat = sql.FieldValue.vuint v → v < 2 ^ 64 →
      sql.expect_one_value_i64 st msg ri ci
        = monad.Result.Ok (sql.toInt64 v) ∧
      (2 ^ 63 ≤ v → sql.toInt64 v < 0) ∧
      (∃ k : Int, sql.toInt64 v = (v : Int) - k * 2 ^ 64) ∧
      -(2 ^ 63 : Int) ≤ sql.toInt64 v ∧ sql.toInt64 v < 2 ^ 63) ∧
    (sql.cellAt st ri.toNat ci.toNat = sql.FieldValue.vint w → 0 ≤ w →
      sql.expect_one_value_u64 st msg ri ci
        = monad.Result.Ok w.toNat) := by
  have herr : ¬ st.error ≠ 0 := by simp [h]
  have h1 : ¬ sql.sizeLEIndex st.results.length ri := by
    unfold sql.sizeLEIndex
    omega
  have h4 : ¬ sql.sizeLEIndex (sql.row0At st ri.toNat).length ci := by
    unfold sql.sizeLEIndex
    omega
  constructor
  · intro hcell hv
    have h5 : ¬ sql.cellAt st ri.toNat ci.toNat = sql.FieldValue.vnull := by
      rw [hcell]
      simp
    have hspec := toInt64_spec v hv
    refine ⟨?_, hspec.1, hspec.2.1, hspec.2.2.1, hspec.2.2.2⟩
    unfold sql.expect_one_value_i64
    rw [if_neg herr, if_neg h1, if_neg hrows, if_neg h4, if_neg h5, hcell]
  · intro hcell hw
    have h5 : ¬ sql.cellAt st ri.toNat ci.toNat = sql.FieldValue.vnull := by
      rw [hcell]
      simp
    have hwn : ¬ w < 0 := not_lt.mpr hw
    unfold sql.expect_one_value_u64
    rw [if_neg herr, if_neg h1, if_neg hrows, if_neg h4, if_neg h5, hcell]
    simp [hwn]

/-- C10 witness: a uint64 cell holding 2 to the 63 comes back as the
negative int64 minimum, and an int64 cell holding 5 comes back as the
uint64 5. -/
theorem expect_one_value_numeric_cast_witness :
    sql.expect_one_value_i64 stBig "m" 0 0
      = monad.Result.Ok (sql.toInt64 (2 ^ 63)) ∧
    sql.toInt64 (2 ^ 63) < 0 ∧
    sql.expect_one_value_u64 stFive "m" 0 0
      = monad.Result.Ok (Int.toNat 5) := by
  have h1 := expect_one_value_numeric_cast stBig "m" 0 0 (2 ^ 63) 5 rfl
    (by decide) (by decide) (by decide) (by decide) (by decide)
  have h2 := expect_one_value_numeric_cast stFive "m" 0 0 (2 ^ 63) 5 rfl
    (by decide) (by decide) (by decide) (by decide) (by decide)
  refine ⟨(h1.1 rfl (by norm_num)).1, ?_, h2.2 rfl (by norm_num)⟩
  exact (h1.1 rfl (by norm_num)).2.1 (by norm_num)

/-- C8: releasing a reusable, alive connection pushes it at the back of the
origin idle deque; when the deque is already at max_idle_per_origin the
oldest (front) entry is closed first, so the deque never exceeds the cap
(positive cap); acquire takes from the back (LIFO).  In particular, after
releasing conn1, conn2, conn3 with cap 2 the deque holds conn2, conn3 with
conn1 closed, and the next acquire returns conn3. -/
theorem pool_release_lifo_cap (max_idle : Nat) (st : beast_pool.PoolState)
    (c old : beast_pool.PoolConn) (rest pre : List beast_pool.PoolConn)
    (cl : List Nat) (hm : 1 ≤ max_idle) :
    (st.idle.length ≤ max_idle →
      (beast_pool.release max_idle st c true).idle.length ≤ max_idle) ∧
    (c.alive = true → st.idle.length < max_idle →
      beast_pool.release max_idle st c true
        = { idle := st.idle ++ [c], closed := st.closed }) ∧
    (c.alive = true → st.idle = old :: rest → max_idle ≤ st.idle.length →
      beast_pool.release max_idle st c true
        = { idle := rest ++ [c], closed := old.id :: st.closed }) ∧
    (c.alive = true → c.expired = false →
      beast_pool.acquire { idle := pre ++ [c], closed := cl }
        = (some c, { idle := pre, closed := cl })) ∧
    (beast_pool.release 2 (beast_pool.release 2 (beast_pool.release 2
        ⟨[], []⟩ conn1 true) conn2 true) conn3 true
      = { idle := [conn2, conn3], closed := [1] } ∧
     beast_pool.acquire { idle := [conn2, conn3], closed := [1] }
      = (some conn3, { idle := [conn2], closed := [1] })) := by
  refine ⟨?_, ?_, ?_, ?_, by decide, by decide⟩
  · intro hle
    unfold beast_pool.release
    by_cases ha : c.alive = false
    · rw [if_pos (Or.inr ha)]
      exact hle
    · rw [if_neg (by rintro (hx | hx) <;> simp_all)]
      by_cases hcap : max_idle ≤ st.idle.length
      · rw [if_pos hcap]
        cases hidle : st.idle with
        | nil => simpa using hm
        | cons hd tl =>
          rw [hidle] at hle
          simp only [List.length_cons] at hle
          simp [List.length_append]
          omega
      · rw [if_neg hcap]
        simp [List.length_append]
        omega
  · intro ha hlt
    unfold beast_pool.release
    rw [if_neg (by rintro (hx | hx) <;> simp_all),
      if_neg (not_le.mpr hlt)]
  · intro ha heq hcap
    unfold beast_pool.release
    rw [if_neg (by rintro (hx | hx) <;> simp_all), if_pos hcap, heq]
  · intro ha he
    simp [beast_pool.acquire, beast_pool.acquireGo, ha, he,
      List.reverse_append]

/-- C8 witness: the cap conjuncts evaluated on the concrete scenario. -/
theorem pool_release_lifo_cap_witness :
    beast_pool.release 2 ⟨[], []⟩ conn1 true
      = { idle := [] ++ [conn1], closed := [] } ∧
    beast_pool.acquire { idle := [conn2] ++ [conn3], closed := [1] }
      = (some conn3, { idle := [conn2], closed := [1] }) ∧
    beast_pool.release 2 (beast_pool.release 2 (beast_pool.release 2
        ⟨[], []⟩ conn1 true) conn2 true) conn3 true
      = { idle := [conn2, conn3], closed := [1] } := by
  have h := pool_release_lifo_cap 2 ⟨[], []⟩ conn1 conn1 [] [conn2] [1]
    (by decide)
  have h3 := pool_release_lifo_cap 2 ⟨[], []⟩ conn3 conn1 [] [conn2] [1]
    (by decide)
  exact ⟨h.2.1 rfl (by decide), h3.2.2.2.1 rfl rfl, h.2.2.2.2.1⟩

/-- C9 (code bug, evaluated): upgrade_to_ssl on an already-TLS stream
returns the existing SSL stream (a non-null pointer, i.e. success) instead
of failing as both the claim and the function's own comment state; with no
TLS context it does fail (nullptr), and on a plain TCP stream with a
context it converts the stream to TLS in place. -/
theorem upgrade_to_ssl_already_tls_bug :
    beast_pool.upgrade_to_ssl ⟨beast_pool.StreamVariant.sslStream, true⟩
      = (⟨beast_pool.StreamVariant.sslStream, true⟩, true) ∧
    beast_pool.upgrade_to_ssl ⟨beast_pool.StreamVariant.sslStream, false⟩
      = (⟨beast_pool.StreamVariant.sslStream, false⟩, true) ∧
    beast_pool.upgrade_to_ssl ⟨beast_pool.StreamVariant.tcpStream, false⟩
      = (⟨beast_pool.StreamVariant.tcpStream, false⟩, false) ∧
    beast_pool.upgrade_to_ssl ⟨beast_pool.StreamVariant.tcpStream, true⟩
      = (⟨beast_pool.StreamVariant.sslStream, true⟩, true) := by
  refine ⟨by decide, by decide, by decide, by decide⟩
